import Mathlib

/-!
Verification of the disaster-response data pipeline
(src/data/process_data.py): a shallow embedding of its tabular
operations — merge, category expansion, numeric conversion,
deduplication, database write and the command-line driver —
together with theorems about each stage.

Strings are Lean strings; the splitting, slicing, replacing and
numeric parsing applied to them are defined by structural recursion
over the underlying character lists so that every definition
evaluates inside the kernel.  pd.to_numeric is modelled by a parser
for its full acceptance grammar — signed decimal and scientific
numerals, infinity and NaN words — with float values carried as exact
canonical decimals.
-/

namespace DisasterPipeline

/-- A cell value: an integer, a float-valued numeral carried exactly as
a canonical decimal m * 10^e (the significand m never a multiple of
ten, and zero carrying exponent zero, so equal values have equal
representations), a string, a signed infinity, or a null (NaN)
placeholder.  NaN cells compare equal here, matching how
drop_duplicates treats NaN when it detects duplicate rows. -/
inductive Val where
  | vInt : Int → Val
  | vNum : Int → Int → Val
  | vStr : String → Val
  | vInf : Bool → Val
  | vNull : Val
deriving DecidableEq, Repr

/-- A dataframe: named columns and rows of cell values, aligned
positionally. -/
structure DataFrame where
  cols : List String
  rows : List (List Val)
deriving DecidableEq, Repr

/-- Split a character list on the semicolon separator, mirroring the
Python split applied to the categories string. -/
def splitSemiChars : List Char → List (List Char)
  | [] => [[]]
  | c :: cs =>
    if c = ';' then [] :: splitSemiChars cs
    else
      match splitSemiChars cs with
      | t :: ts => (c :: t) :: ts
      | [] => [[c]]

/-- s.split(";") on strings. -/
def splitSemi (s : String) : List String :=
  (splitSemiChars s.data).map String.mk

/-- Drop the last two characters of a string: the Python slice s[:-2]
used to turn a first-row token into a column name. -/
def dropLast2 (s : String) : String :=
  String.mk (s.data.take (s.data.length - 2))

/-- Remove every occurrence of the pattern, scanning left to right
without overlap, on a fuel bound: the recursion consumes at least one
character of the text per step, so any fuel at least the text length
computes Python s.replace(pattern, ""). -/
def removeAllAux (pat : List Char) : Nat → List Char → List Char
  | _, [] => []
  | 0, l => l
  | Nat.succ fuel, c :: cs =>
    if pat.isPrefixOf (c :: cs) then
      removeAllAux pat fuel (List.drop (pat.length - 1) cs)
    else
      c :: removeAllAux pat fuel cs

/-- s.replace(pat, "") for a nonempty pattern. -/
def removeAll (s pat : String) : String :=
  if pat.data.isEmpty then s
  else String.mk (removeAllAux pat.data s.data.length s.data)

/-- Value of a digit sequence, most significant digit first. -/
def digitsVal (acc : Nat) : List Char → Nat
  | [] => acc
  | c :: cs => digitsVal (acc * 10 + (c.toNat - 48)) cs

/-- Strip leading and trailing blanks, as the pandas numeric tokenizer
does around a value. -/
def trimChars (l : List Char) : List Char :=
  ((l.dropWhile (fun c => c.isWhitespace)).reverse.dropWhile
    (fun c => c.isWhitespace)).reverse

/-- Case-insensitive comparison with a lower-case word. -/
def lowerEq (l w : List Char) : Bool :=
  l.map Char.toLower == w

/-- Read an optional leading sign; true means negative. -/
def readSign : List Char → Bool × List Char
  | '-' :: rest => (true, rest)
  | '+' :: rest => (false, rest)
  | l => (false, l)

/-- Read an exponent body: an optional sign followed by at least one
digit and nothing else. -/
def parseExpChars (l : List Char) : Option (Bool × Nat) :=
  let s := readSign l
  if !s.2.isEmpty && s.2.all (fun c => c.isDigit) then
    some (s.1, digitsVal 0 s.2)
  else none

/-- Strip factors of ten from the significand into the exponent; the
fuel (a digit count) bounds the strips. -/
def canonDec : Nat → Nat → Int → Nat × Int
  | 0, n, e => (n, e)
  | Nat.succ f, n, e =>
    if n ≠ 0 ∧ n % 10 = 0 then canonDec f (n / 10) (e + 1) else (n, e)

/-- Exact value of a signed decimal or scientific numeral as a
canonical decimal: the significand digits scaled by ten to the signed
exponent minus the fraction length. -/
def numVal (neg : Bool) (intDs fracDs : List Char) (eneg : Bool)
    (en : Nat) : Val :=
  let n := digitsVal 0 (intDs ++ fracDs)
  let e0 : Int := (if eneg then -(en : Int) else (en : Int)) -
    (fracDs.length : Int)
  if n = 0 then Val.vNum 0 0
  else
    let c := canonDec (intDs.length + fracDs.length) n e0
    Val.vNum (if neg then -(c.1 : Int) else (c.1 : Int)) c.2

/-- Classify what follows the significand digits: nothing (an integer
when no decimal point was read, otherwise a float), or an exponent
part.  A numeral with a decimal point or an exponent is a float cell,
matching the int64-versus-float64 outcome of the conversion. -/
def afterMantissa (neg : Bool) (intDs fracDs : List Char) (hasDot : Bool) :
    List Char → Option Val
  | [] =>
    if intDs.isEmpty ∧ fracDs.isEmpty then none
    else if hasDot then some (numVal neg intDs fracDs false 0)
    else some (Val.vInt (if neg then -((digitsVal 0 intDs : Nat) : Int)
      else ((digitsVal 0 intDs : Nat) : Int)))
  | c :: r =>
    if (c = 'e' ∨ c = 'E') ∧ ¬(intDs.isEmpty ∧ fracDs.isEmpty) then
      match parseExpChars r with
      | some en => some (numVal neg intDs fracDs en.1 en.2)
      | none => none
    else none

/-- The string-to-number conversion pd.to_numeric applies to one value:
an optionally signed decimal or scientific numeral, an infinity word,
or a NaN word, with surrounding blanks allowed; anything else raises.
A purely digit-formed numeral keeps its integer value, a numeral with a
decimal point or exponent becomes a float cell.  Two deliberate
approximations: the float value is carried exactly as a canonical
decimal (float64 rounding is not modelled), and the int-versus-float
outcome is decided per value rather than per column. -/
def parseNumVal (l0 : List Char) : Option Val :=
  let l := trimChars l0
  let sg := readSign l
  if lowerEq sg.2 ['i', 'n', 'f'] ||
      lowerEq sg.2 ['i', 'n', 'f', 'i', 'n', 'i', 't', 'y'] then
    some (Val.vInf sg.1)
  else if lowerEq sg.2 ['n', 'a', 'n'] then
    some Val.vNull
  else
    let intDs := sg.2.takeWhile (fun c => c.isDigit)
    let r1 := sg.2.dropWhile (fun c => c.isDigit)
    match r1 with
    | '.' :: r2 =>
      afterMantissa sg.1 intDs (r2.takeWhile (fun c => c.isDigit)) true
        (r2.dropWhile (fun c => c.isDigit))
    | _ => afterMantissa sg.1 intDs [] false r1

/-- Numeric parse of a string cell. -/
def toNumOpt (s : String) : Option Val := parseNumVal s.data

/-- Value of the named column in one row: the row entry paired
positionally with the first column of that name. -/
def cellVal (cols : List String) (row : List Val) (c : String) : Option Val :=
  ((cols.zip row).find? (fun p => p.1 == c)).map (fun p => p.2)

/-- Index of the first column with the given name. -/
def colIndex (cols : List String) (c : String) : Option Nat :=
  cols.findIdx? (fun x => x == c)

/-- Drop the entry of the key column from a row of the right table:
pd.merge keeps a single copy of the join key. -/
def eraseKey (cols : List String) (row : List Val) (key : String) : List Val :=
  match colIndex cols key with
  | some i => row.eraseIdx i
  | none => row

/-- pd.merge(left, right, on=key): inner join on the key column.  For
each left row in order, the matching right rows in order, with the
right key entry dropped; rows without a present, equal key on both
sides are dropped. -/
def mergeOn (left right : DataFrame) (key : String) : DataFrame :=
  { cols := left.cols ++ right.cols.filter (fun c => c != key),
    rows := left.rows.flatMap (fun lr =>
      ((right.rows.filter (fun rr =>
          (cellVal right.cols rr key == cellVal left.cols lr key) &&
          (cellVal left.cols lr key).isSome)).map
        (fun rr => lr ++ eraseKey right.cols rr key))) }

/-- Sequence a list of optional values, failing when any entry fails. -/
def seqOpt {α : Type} : List (Option α) → Option (List α)
  | [] => some []
  | o :: os =>
    match o, seqOpt os with
    | some a, some l => some (a :: l)
    | _, _ => none

/-- Require a string cell. -/
def asStr : Option Val → Option String
  | some (Val.vStr s) => some s
  | _ => none

/-- df[c] when every cell of the column is a string: the column read
that feeds the category split. -/
def getColStrs (df : DataFrame) (c : String) : Option (List String) :=
  seqOpt (df.rows.map (fun r => asStr (cellVal df.cols r c)))

/-- df.drop(columns=[c]): remove the first column named c and the
corresponding entry of every row. -/
def dropCol (df : DataFrame) (c : String) : DataFrame :=
  match colIndex df.cols c with
  | some i =>
    { cols := df.cols.eraseIdx i, rows := df.rows.map (fun r => r.eraseIdx i) }
  | none => df

/-- The category names that are new relative to the existing columns. -/
def newColNames (dfCols catCols : List String) : List String :=
  catCols.filter (fun c => !(dfCols.contains c))

/-- The overwriting part of df[cats.cols] = cats on one row: every
existing column whose name is a category name takes the aligned
category value, the rest keep their value. -/
def overwriteRow (dfCols : List String) (r : List Val) (cats : DataFrame)
    (cr : List Val) : List Val :=
  (dfCols.zip r).map (fun p =>
    match cellVal cats.cols cr p.1 with
    | some v => v
    | none => p.2)

/-- One full row of df[cats.cols] = cats: overwritten existing entries
followed by the appended new category entries. -/
def assignRow (dfCols : List String) (cats : DataFrame)
    (p : List Val × List Val) : List Val :=
  overwriteRow dfCols p.1 cats p.2 ++
    (newColNames dfCols cats.cols).map
      (fun c => (cellVal cats.cols p.2 c).getD Val.vNull)

/-- df[cats.cols] = cats: column-wise assignment aligned by position. -/
def assignCols (df cats : DataFrame) : DataFrame :=
  { cols := df.cols ++ newColNames df.cols cats.cols,
    rows := (df.rows.zip cats.rows).map (assignRow df.cols cats) }

/-- Keep the first occurrence of every row not seen before. -/
def dropDupAux (seen : List (List Val)) : List (List Val) → List (List Val)
  | [] => []
  | r :: rs =>
    if r ∈ seen then dropDupAux seen rs else r :: dropDupAux (r :: seen) rs

/-- df.drop_duplicates(): keep the first occurrence of every row. -/
def dropDuplicates (rows : List (List Val)) : List (List Val) :=
  dropDupAux [] rows

/-- Convert one row of tokens: for the column named c, remove every
occurrence of c ++ "-" from the token and convert the remainder to a
number — categories[c].str.replace(c + "-", "") then pd.to_numeric. -/
def convertRow : List String → List String → Option (List Val)
  | [], [] => some []
  | c :: cs, t :: ts =>
    match toNumOpt (removeAll t (c ++ "-")), convertRow cs ts with
    | some n, some l => some (n :: l)
    | _, _ => none
  | _, _ => none

/-- The category column names clean_data derives: each token of the
first merged categories value minus its last two characters. -/
def derivedNames (messages categories : DataFrame) : List String :=
  match getColStrs (mergeOn messages categories "id") "categories" with
  | some catStrs =>
    match catStrs.head? with
    | some s => (splitSemi s).map dropLast2
    | none => []
  | none => []

/-- The token-level tail of clean_data, after the merge and the read of
the raw categories column: require every row to carry as many tokens as
the first (pandas would otherwise fail the column rename), derive the
column names, require them distinct (iterating duplicated column names
would fail), convert every token to an integer, drop the raw column,
attach the numeric columns and remove duplicate rows. -/
def cleanMergedTokens (df : DataFrame) (tokenRows : List (List String))
    (firstRow : List String) : Option DataFrame :=
  if tokenRows.all (fun r => r.length == firstRow.length) then
    let names := firstRow.map dropLast2
    if names.Nodup then
      match seqOpt (tokenRows.map (fun r => convertRow names r)) with
      | some catRows =>
        let catsDf : DataFrame :=
          { cols := names, rows := catRows }
        let assigned := assignCols (dropCol df "categories") catsDf
        some { cols := assigned.cols, rows := dropDuplicates assigned.rows }
      | none => none
    else none
  else none

/-- clean_data(messages, categories): merge on "id", split the
categories strings, expand them into integer columns named after the
first row tokens, drop the raw column and deduplicate.  Returns none
whenever the Python code would raise: empty merge (iloc[0]), missing or
non-string categories column, shape mismatch, duplicated derived names,
or a value that fails the numeric conversion. -/
def cleanData (messages categories : DataFrame) : Option DataFrame :=
  let df := mergeOn messages categories "id"
  match getColStrs df "categories" with
  | some catStrs =>
    let tokenRows := catStrs.map splitSemi
    match tokenRows.head? with
    | some firstRow => cleanMergedTokens df tokenRows firstRow
    | none => none
  | none => none

/-- The relational sink: named tables. -/
structure Database where
  tables : List (String × DataFrame)
deriving DecidableEq, Repr

/-- df.to_sql(name, engine, if_exists=mode): create the table when it
is absent; when it exists, replace it, append to it, or fail (none)
according to the mode. -/
def toSql (db : Database) (tableName : String) (df : DataFrame)
    (ifExists : String) : Option Database :=
  if db.tables.all (fun p => p.1 != tableName) then
    some { tables := db.tables ++ [(tableName, df)] }
  else if ifExists == "replace" then
    some { tables := db.tables.filter (fun p => p.1 != tableName) ++ [(tableName, df)] }
  else if ifExists == "append" then
    some { tables := db.tables.map (fun p =>
      if p.1 == tableName then (p.1, { cols := p.2.cols, rows := p.2.rows ++ df.rows }) else p) }
  else none

set_option linter.unusedVariables false in
/-- save_data(df, database_filename, should_replace): the write is
issued with the literal mode "replace"; the should_replace argument is
accepted but never consulted. -/
def saveData (df : DataFrame) (db : Database) (should_replace : Bool) :
    Option Database :=
  toSql db "DISASTER_DATA" df "replace"

/-- The observable actions of the command-line driver. -/
inductive PipeAction where
  | printText : String → PipeAction
  | loadFiles : String → String → PipeAction
  | cleanStep : PipeAction
  | saveStep : String → PipeAction
deriving DecidableEq, Repr

/-- The usage text printed on a wrong argument count. -/
def usageText : String :=
  "Please provide the filepaths of the messages and categories datasets as the first and second argument respectively, as well as the filepath of the database to save the cleaned data to as the third argument. \n\nExample: python process_data.py disaster_messages.csv disaster_categories.csv DisasterResponse.db"

/-- main(): with exactly three positional arguments (sys.argv of length
four, program name included) run load, clean and save with progress
prints; otherwise print the usage text and return normally. -/
def mainActions (args : List String) : List PipeAction :=
  match args with
  | [m, c, d] =>
    [PipeAction.printText ("Loading data...\n    MESSAGES: " ++ m ++ "\n    CATEGORIES: " ++ c),
     PipeAction.loadFiles m c,
     PipeAction.printText "Cleaning data...",
     PipeAction.cleanStep,
     PipeAction.printText ("Saving data...\n    DATABASE: " ++ d),
     PipeAction.saveStep d,
     PipeAction.printText "Cleaned data saved to database!"]
  | _ => [PipeAction.printText usageText]

/-- clean_data at the level of object identity: the two arguments live
in heap cells; pd.merge and the expanding split allocate fresh frames,
and every in-place update of the source — the column rename, the
per-column numeric conversion, the drop of the raw column, the column
assignment and the duplicate removal — writes to one of the two fresh
cells.  Returns the final heap with the address of the result. -/
def cleanDataHeap (h : List DataFrame) (am ac : Nat) :
    Option (List DataFrame × Nat) :=
  match h[am]?, h[ac]? with
  | some messages, some cats0 =>
    let df0 := mergeOn messages cats0 "id"
    let adf := h.length
    let h1 := h ++ [df0]
    match getColStrs df0 "categories" with
    | some catStrs =>
      let tokenRows := catStrs.map splitSemi
      match tokenRows.head? with
      | some firstRow =>
        let acat := h1.length
        let h2 := h1 ++
          [{ cols := (List.range firstRow.length).map toString,
             rows := tokenRows.map (fun r => r.map Val.vStr) }]
        if tokenRows.all (fun r => r.length == firstRow.length) then
          let names := firstRow.map dropLast2
          let h3 := h2.set acat
            { cols := names, rows := tokenRows.map (fun r => r.map Val.vStr) }
          if names.Nodup then
            match seqOpt (tokenRows.map (fun r => convertRow names r)) with
            | some catRows =>
              let catsDf : DataFrame :=
                { cols := names, rows := catRows }
              let h4 := h3.set acat catsDf
              let h5 := h4.set adf (dropCol df0 "categories")
              let assigned := assignCols (dropCol df0 "categories") catsDf
              let h6 := h5.set adf assigned
              let h7 := h6.set adf
                { cols := assigned.cols, rows := dropDuplicates assigned.rows }
              some (h7, adf)
            | none => none
          else none
        else none
      | none => none
    | none => none
  | _, _ => none

/-! ### Concrete tables used by the scenario theorems and witnesses -/

/-- The spec scenario message table: one message. -/
def msgs1 : DataFrame :=
  { cols := ["id", "message"], rows := [[Val.vInt 1, Val.vStr "flood here"]] }

/-- The spec scenario category table: one delimited category string. -/
def cats1 : DataFrame :=
  { cols := ["id", "categories"], rows := [[Val.vInt 1, Val.vStr "related-1;offer-0"]] }

/-- The cleaned table the spec scenario expects. -/
def cleaned1 : DataFrame :=
  { cols := ["id", "message", "related", "offer"],
    rows := [[Val.vInt 1, Val.vStr "flood here", Val.vInt 1, Val.vInt 0]] }

/-- Two messages, used where a second row matters. -/
def msgs2 : DataFrame :=
  { cols := ["id", "message"],
    rows := [[Val.vInt 1, Val.vStr "flood here"], [Val.vInt 2, Val.vStr "storm"]] }

/-- A category table whose identifier 1 appears twice with different
flags: the merge then yields two rows with the same identifier. -/
def catsDupId : DataFrame :=
  { cols := ["id", "categories"],
    rows := [[Val.vInt 1, Val.vStr "related-1"], [Val.vInt 1, Val.vStr "related-0"]] }

/-- A category table whose single token is named "id": the derived
column overwrites the identifier column. -/
def catsIdToken : DataFrame :=
  { cols := ["id", "categories"], rows := [[Val.vInt 1, Val.vStr "id-5"]] }

/-- A category table whose second row token "a-a-1" has a non-numeric
remainder after its "a-" name is removed once, yet is accepted because
the code removes every occurrence of "a-". -/
def catsReplTwice : DataFrame :=
  { cols := ["id", "categories"],
    rows := [[Val.vInt 1, Val.vStr "a-1"], [Val.vInt 2, Val.vStr "a-a-1"]] }

/-- A category table with a malformed numeric suffix. -/
def catsBadSuffix : DataFrame :=
  { cols := ["id", "categories"], rows := [[Val.vInt 1, Val.vStr "related-x"]] }

/-- A category table whose second token value is the non-integer
numeral 1.5, which pd.to_numeric converts to the float 1.5 (the first
row names the column "related"). -/
def catsFloat : DataFrame :=
  { cols := ["id", "categories"],
    rows := [[Val.vInt 1, Val.vStr "related-0"],
             [Val.vInt 2, Val.vStr "related-1.5"]] }

/-- The table clean_data produces on msgs2 and catsFloat: the second
related cell carries 15 * 10^(-1) = 1.5. -/
def cleanedFloat : DataFrame :=
  { cols := ["id", "message", "related"],
    rows := [[Val.vInt 1, Val.vStr "flood here", Val.vInt 0],
             [Val.vInt 2, Val.vStr "storm", Val.vNum 15 (-1)]] }

/-- An existing table in the sink. -/
def oldTable : DataFrame := { cols := ["x"], rows := [[Val.vInt 7]] }

/-- The table of a later run. -/
def newTable : DataFrame := { cols := ["x"], rows := [[Val.vInt 8]] }

/-- A sink already holding DISASTER_DATA. -/
def dbWithData : Database := { tables := [("DISASTER_DATA", oldTable)] }

/-- The table clean_data produces on msgs2 and catsReplTwice: the
"a-a-1" token is accepted with value 1 because every "a-" occurrence is
removed. -/
def cleanedReplTwice : DataFrame :=
  { cols := ["id", "message", "a"],
    rows := [[Val.vInt 1, Val.vStr "flood here", Val.vInt 1],
             [Val.vInt 2, Val.vStr "storm", Val.vInt 1]] }

/-- A message frame with a genre column, colliding with a derived name. -/
def genreMsgs : DataFrame :=
  { cols := ["id", "message", "genre"],
    rows := [[Val.vInt 1, Val.vStr "m", Val.vStr "news"]] }

/-- An expanded category frame whose first column is named genre. -/
def genreCats : DataFrame :=
  { cols := ["genre", "related"], rows := [[Val.vInt 0, Val.vInt 1]] }

/-- The final heap of the heap-level clean_data run on [msgs1, cats1]:
the untouched inputs followed by the two frames the function allocated
and mutated in place. -/
def heapOut1 : List DataFrame :=
  [msgs1, cats1, cleaned1,
   { cols := ["related", "offer"], rows := [[Val.vInt 1, Val.vInt 0]] }]

/-! ### Lemmas about duplicate removal -/

lemma dropDupAux_idem (l : List (List Val)) :
    ∀ seen, dropDupAux seen (dropDupAux seen l) = dropDupAux seen l := by
  induction l with
  | nil => intro seen; rfl
  | cons r rs ih =>
    intro seen
    by_cases hr : r ∈ seen
    · simp only [dropDupAux, if_pos hr]
      exact ih seen
    · simp only [dropDupAux, if_neg hr]
      rw [ih (r :: seen)]

lemma dropDupAux_sublist (l : List (List Val)) :
    ∀ seen, (dropDupAux seen l).Sublist l := by
  induction l with
  | nil => intro seen; simp [dropDupAux]
  | cons r rs ih =>
    intro seen
    by_cases hr : r ∈ seen
    · simp only [dropDupAux, if_pos hr]
      exact (ih seen).cons r
    · simp only [dropDupAux, if_neg hr]
      exact (ih (r :: seen)).cons₂ r

lemma mem_of_mem_dropDupAux {r : List Val} (l : List (List Val)) :
    ∀ seen, r ∈ dropDupAux seen l → r ∈ l := by
  intro seen h
  exact (dropDupAux_sublist l seen).mem h

/-! ### Lemmas about column lookup -/

lemma cellVal_nil_cols (r : List Val) (c : String) : cellVal [] r c = none := by
  simp [cellVal]

lemma cellVal_cons (c0 : String) (v : Val) (cs : List String) (rs : List Val)
    (c : String) :
    cellVal (c0 :: cs) (v :: rs) c = if c0 = c then some v else cellVal cs rs c := by
  unfold cellVal
  by_cases he : c0 = c
  · rw [List.zip_cons_cons, List.find?_cons_of_pos _ (by simp [he]), if_pos he]
    rfl
  · rw [List.zip_cons_cons, List.find?_cons_of_neg _ (by simp [he]), if_neg he]

lemma cellVal_eq_none_of_not_mem {cols : List String} (r : List Val) {c : String}
    (h : c ∉ cols) : cellVal cols r c = none := by
  have hfind : (cols.zip r).find? (fun p => p.1 == c) = none := by
    rw [List.find?_eq_none]
    intro p hp
    have h1 := (List.of_mem_zip hp).1
    simp only [beq_iff_eq]
    intro he
    exact h (he ▸ h1)
  simp [cellVal, hfind]

lemma cellVal_isSome_of_mem {cols : List String} {r : List Val} {c : String}
    (hmem : c ∈ cols) (hlen : r.length = cols.length) :
    (cellVal cols r c).isSome := by
  induction cols generalizing r with
  | nil => cases hmem
  | cons c0 cs ih =>
    cases r with
    | nil => simp at hlen
    | cons v rs =>
      rw [cellVal_cons]
      by_cases he : c0 = c
      · simp [he]
      · have : c ∈ cs := by
          cases hmem with
          | head => exact absurd rfl he
          | tail _ h => exact h
        simp only [if_neg he]
        exact ih this (by simpa using hlen)

lemma cellVal_append (A B : List String) (ra rb : List Val) (c : String)
    (h : ra.length = A.length) :
    cellVal (A ++ B) (ra ++ rb) c = (cellVal A ra c).or (cellVal B rb c) := by
  unfold cellVal
  rw [List.zip_append h.symm, List.find?_append]
  cases (A.zip ra).find? (fun p => p.1 == c) <;> simp

lemma find?_eraseIdx_of_pred_false {α : Type} (p : α → Bool) :
    ∀ (l : List α) (j : Nat), (∀ x, l[j]? = some x → p x = false) →
    (l.eraseIdx j).find? p = l.find? p := by
  intro l
  induction l with
  | nil => intro j _; rfl
  | cons a l ih =>
    intro j hj
    cases j with
    | zero =>
      have ha : p a = false := hj a (by simp)
      simp [List.eraseIdx, List.find?, ha]
    | succ j =>
      have hrec := ih j (fun x hx => hj x (by simpa using hx))
      by_cases hpa : p a
      · simp [List.eraseIdx, List.find?, hpa]
      · simp only [Bool.not_eq_true] at hpa
        simp [List.eraseIdx, List.find?, hpa, hrec]

lemma zip_eraseIdx {α β : Type} :
    ∀ (l1 : List α) (l2 : List β) (j : Nat), l1.length = l2.length →
    (l1.eraseIdx j).zip (l2.eraseIdx j) = (l1.zip l2).eraseIdx j := by
  intro l1
  induction l1 with
  | nil => intro l2 j h; simp
  | cons a l1 ih =>
    intro l2 j h
    cases l2 with
    | nil => simp at h
    | cons b l2 =>
      cases j with
      | zero => rfl
      | succ j =>
        show ((a :: l1.eraseIdx j).zip (b :: l2.eraseIdx j)) =
          ((a, b) :: l1.zip l2).eraseIdx (j + 1)
        rw [List.zip_cons_cons, ih l2 j (by simpa using h)]
        rfl

lemma cellVal_eraseIdx {cols : List String} {r : List Val} {j : Nat}
    {name c : String} (hlen : r.length = cols.length)
    (hj : cols[j]? = some name) (hne : name ≠ c) :
    cellVal (cols.eraseIdx j) (r.eraseIdx j) c = cellVal cols r c := by
  unfold cellVal
  rw [zip_eraseIdx cols r j hlen.symm]
  rw [find?_eraseIdx_of_pred_false]
  intro x hx
  have h1 : cols[j]? = some x.1 := (List.getElem?_zip_eq_some.mp hx).1
  have : x.1 = name := by
    rw [hj] at h1
    exact (Option.some.injEq _ _ ▸ h1.symm)
  simp [this, hne]

lemma zip_self_map {α β γ : Type} (f : α × β → γ) :
    ∀ (l : List α) (r : List β),
    l.zip ((l.zip r).map f) = (l.zip r).map (fun p => (p.1, f p)) := by
  intro l
  induction l with
  | nil => intro r; simp
  | cons a l ih =>
    intro r
    cases r with
    | nil => simp
    | cons b rs => simp [ih rs]

lemma cellVal_map_named (N : List String) (g : String → Val) (c : String) :
    cellVal N (N.map g) c = if c ∈ N then some (g c) else none := by
  induction N with
  | nil => simp [cellVal]
  | cons n ns ih =>
    rw [List.map_cons, cellVal_cons]
    by_cases he : n = c
    · simp [he]
    · have hcn : ¬c = n := fun hcn => he hcn.symm
      simp only [if_neg he, ih, List.mem_cons, hcn, false_or]

lemma cellVal_overwrite (dfCols : List String) (cats : DataFrame)
    (r cr : List Val) (c : String) :
    cellVal dfCols (overwriteRow dfCols r cats cr) c =
      ((dfCols.zip r).find? (fun p => p.1 == c)).map (fun p =>
        match cellVal cats.cols cr p.1 with
        | some v => v
        | none => p.2) := by
  unfold cellVal overwriteRow
  rw [zip_self_map, List.find?_map]
  have hpred : ((fun p : String × Val => p.1 == c) ∘
      (fun p : String × Val => (p.1,
        match cellVal cats.cols cr p.1 with
        | some v => v
        | none => p.2))) = (fun p : String × Val => p.1 == c) := by
    funext p; rfl
  rw [hpred, Option.map_map]
  rfl

/-- The shape of one assigned row: every existing column keeps its value
unless a category column of the same name overwrites it; the new
category columns are appended. -/
lemma cellVal_assignRow (dfCols : List String) (cats : DataFrame)
    (r cr : List Val) (c : String) (hr : r.length = dfCols.length) :
    cellVal (dfCols ++ newColNames dfCols cats.cols)
        (assignRow dfCols cats (r, cr)) c =
      match cellVal dfCols r c with
      | some v => some ((cellVal cats.cols cr c).getD v)
      | none =>
        if c ∈ newColNames dfCols cats.cols then
          some ((cellVal cats.cols cr c).getD Val.vNull)
        else none := by
  unfold assignRow
  have hlen : (overwriteRow dfCols r cats cr).length = dfCols.length := by
    simp [overwriteRow, List.length_zip, hr]
  rw [cellVal_append _ _ _ _ _ hlen, cellVal_overwrite,
    cellVal_map_named]
  cases hfind : (dfCols.zip r).find? (fun p => p.1 == c) with
  | none =>
    have hcv : cellVal dfCols r c = none := by
      unfold cellVal
      rw [hfind]
      rfl
    rw [hcv]
    simp
  | some p0 =>
    obtain ⟨n0, v0⟩ := p0
    have hn0 : n0 = c := by
      simpa [beq_iff_eq] using List.find?_some hfind
    subst hn0
    have hcv : cellVal dfCols r n0 = some v0 := by
      unfold cellVal
      rw [hfind]
      rfl
    rw [hcv]
    cases h2 : cellVal cats.cols cr n0 <;> simp [h2]

/-! ### Claim theorems, part 1 -/

/-- C1: on messages = [(id 1, message "flood here")] and categories =
[(id 1, categories "related-1;offer-0")], clean_data returns exactly the
one row (id 1, message "flood here", related 1, offer 0): merged on id,
the categories string split on ";", each token named by all but its last
two characters, valued by its numeric suffix, and the raw categories
column removed. -/
theorem claim1_single_row_scenario : cleanData msgs1 cats1 = some cleaned1 := by
  decide

/-- C3 (code bug): save_data always writes the fixed table name
DISASTER_DATA with mode "replace"; the should_replace argument is never
consulted, so with the flag false an existing table is still replaced,
against the documented contract of the flag. -/
theorem claim3_flag_ignored :
    (∀ df db b, saveData df db b = saveData df db true) ∧
    saveData newTable dbWithData false =
      some { tables := [("DISASTER_DATA", newTable)] } := by
  refine ⟨fun df db b => rfl, ?_⟩
  decide

/-- C6: removing exact-duplicate rows is idempotent — applying the
deduplication step to its own output changes nothing, in particular the
row count stays the same. -/
theorem claim6_dedup_idempotent (rows : List (List Val)) :
    dropDuplicates (dropDuplicates rows) = dropDuplicates rows ∧
    (dropDuplicates (dropDuplicates rows)).length = (dropDuplicates rows).length := by
  have h := dropDupAux_idem rows []
  exact ⟨h, by rw [dropDuplicates, dropDuplicates, h]⟩

/-- C7: whenever the positional argument count is not three, main only
prints the usage text: no load, no clean, no save is performed, and the
run ends normally. -/
theorem claim7_usage_on_wrong_argc (args : List String) (h : args.length ≠ 3) :
    mainActions args = [PipeAction.printText usageText] ∧
    (∀ m c, PipeAction.loadFiles m c ∉ mainActions args) ∧
    PipeAction.cleanStep ∉ mainActions args ∧
    (∀ d, PipeAction.saveStep d ∉ mainActions args) := by
  have husage : mainActions args = [PipeAction.printText usageText] := by
    match args with
    | [] => rfl
    | [_] => rfl
    | [_, _] => rfl
    | [_, _, _] => exact absurd rfl h
    | _ :: _ :: _ :: _ :: _ => rfl
  refine ⟨husage, ?_, ?_, ?_⟩
  · intro m c; rw [husage]; simp
  · rw [husage]; simp
  · intro d; rw [husage]; simp

/-- C9: in the expansion step df[cats.cols] = cats, an existing column
whose name equals a derived category name is overwritten with the
aligned category values, and every existing column whose name is not a
category name keeps its values. -/
theorem claim9_assign_overwrites (df cats : DataFrame) (i : Nat)
    (r cr : List Val) (c : String)
    (hdf : df.rows[i]? = some r) (hcat : cats.rows[i]? = some cr)
    (hr : r.length = df.cols.length) (hcr : cr.length = cats.cols.length)
    (hc : c ∈ df.cols) :
    (assignCols df cats).rows[i]? = some (assignRow df.cols cats (r, cr)) ∧
    (c ∈ cats.cols →
      cellVal (assignCols df cats).cols (assignRow df.cols cats (r, cr)) c =
        cellVal cats.cols cr c) ∧
    (c ∉ cats.cols →
      cellVal (assignCols df cats).cols (assignRow df.cols cats (r, cr)) c =
        cellVal df.cols r c) := by
  have hzip : (df.rows.zip cats.rows)[i]? = some (r, cr) :=
    List.getElem?_zip_eq_some.mpr ⟨hdf, hcat⟩
  have hrows : (assignCols df cats).rows[i]? =
      some (assignRow df.cols cats (r, cr)) := by
    show ((df.rows.zip cats.rows).map (assignRow df.cols cats))[i]? = _
    rw [List.getElem?_map, hzip]
    rfl
  obtain ⟨v0, hv0⟩ := Option.isSome_iff_exists.mp (cellVal_isSome_of_mem hc hr)
  have hmaster := cellVal_assignRow df.cols cats r cr c hr
  refine ⟨hrows, ?_, ?_⟩
  · intro hcc
    obtain ⟨w, hw⟩ := Option.isSome_iff_exists.mp (cellVal_isSome_of_mem hcc hcr)
    show cellVal (df.cols ++ newColNames df.cols cats.cols) _ c = _
    rw [hmaster, hv0, hw]
    rfl
  · intro hcc
    have hnone : cellVal cats.cols cr c = none :=
      cellVal_eq_none_of_not_mem _ hcc
    show cellVal (df.cols ++ newColNames df.cols cats.cols) _ c = _
    rw [hmaster, hnone, hv0]
    rfl

/-- Witness for C9: the derived column genre overwrites the message
frame's genre column, and the columns id, message are untouched. -/
theorem claim9_witness :
    (assignCols genreMsgs genreCats).rows[0]? =
      some (assignRow genreMsgs.cols genreCats
        ([Val.vInt 1, Val.vStr "m", Val.vStr "news"], [Val.vInt 0, Val.vInt 1])) ∧
    ("genre" ∈ genreCats.cols →
      cellVal (assignCols genreMsgs genreCats).cols
        (assignRow genreMsgs.cols genreCats
          ([Val.vInt 1, Val.vStr "m", Val.vStr "news"], [Val.vInt 0, Val.vInt 1]))
        "genre" =
      cellVal genreCats.cols [Val.vInt 0, Val.vInt 1] "genre") ∧
    ("genre" ∉ genreCats.cols →
      cellVal (assignCols genreMsgs genreCats).cols
        (assignRow genreMsgs.cols genreCats
          ([Val.vInt 1, Val.vStr "m", Val.vStr "news"], [Val.vInt 0, Val.vInt 1]))
        "genre" =
      cellVal genreMsgs.cols [Val.vInt 1, Val.vStr "m", Val.vStr "news"] "genre") :=
  claim9_assign_overwrites genreMsgs genreCats 0
    [Val.vInt 1, Val.vStr "m", Val.vStr "news"] [Val.vInt 0, Val.vInt 1] "genre"
    (by decide) (by decide) (by decide) (by decide) (by decide)

lemma heap_writes_preserve (h : List DataFrame) (A B X Y Z W V : DataFrame)
    (i : Nat) (hi : i < h.length) :
    (((((((h ++ [A]) ++ [B]).set ((h ++ [A]).length) X).set
        ((h ++ [A]).length) Y).set h.length Z).set h.length W).set
        h.length V)[i]? = h[i]? := by
  have h1 : i < (h ++ [A]).length := by
    simp only [List.length_append, List.length_cons, List.length_nil]
    omega
  have hne : (h ++ [A]).length ≠ i := by omega
  rw [List.getElem?_set_ne (by omega), List.getElem?_set_ne (by omega),
    List.getElem?_set_ne (by omega), List.getElem?_set_ne hne,
    List.getElem?_set_ne hne, List.getElem?_append, if_pos h1,
    List.getElem?_append, if_pos hi]

set_option maxHeartbeats 1000000 in
/-- C10: clean_data leaves its two argument frames untouched — every
in-place mutation of the Python code targets the frame allocated by the
merge or the frame allocated by the expanding split, so after the run
the heap cells of the inputs hold exactly what they held before. -/
theorem claim10_inputs_unchanged (h : List DataFrame) (am ac : Nat)
    (hfin : List DataFrame) (a : Nat)
    (ham : am < h.length) (hac : ac < h.length)
    (hrun : cleanDataHeap h am ac = some (hfin, a)) :
    hfin[am]? = h[am]? ∧ hfin[ac]? = h[ac]? := by
  unfold cleanDataHeap at hrun
  split at hrun
  case h_2 => exact Option.noConfusion hrun
  case h_1 messages cats0 hM hC =>
    dsimp only at hrun
    split at hrun
    case h_2 => exact Option.noConfusion hrun
    case h_1 catStrs hstrs =>
      split at hrun
      case h_2 => exact Option.noConfusion hrun
      case h_1 firstRow hfirst =>
        split at hrun
        case isFalse => exact Option.noConfusion hrun
        case isTrue hall =>
          split at hrun
          case isFalse => exact Option.noConfusion hrun
          case isTrue hnodup =>
            split at hrun
            case h_2 => exact Option.noConfusion hrun
            case h_1 catRows hseq =>
              rw [Option.some.injEq, Prod.mk.injEq] at hrun
              obtain ⟨hh, ha⟩ := hrun
              subst hh
              exact ⟨heap_writes_preserve h _ _ _ _ _ _ _ am ham,
                heap_writes_preserve h _ _ _ _ _ _ _ ac hac⟩

/-- Witness for C10 on the spec scenario heap. -/
theorem claim10_witness :
    heapOut1[0]? = ([msgs1, cats1] : List DataFrame)[0]? ∧
    heapOut1[1]? = ([msgs1, cats1] : List DataFrame)[1]? :=
  claim10_inputs_unchanged [msgs1, cats1] 0 1 heapOut1 2
    (by decide) (by decide) (by decide)

/-- Witness for C7 at a concrete two-argument invocation. -/
theorem claim7_witness :
    mainActions ["disaster_messages.csv", "disaster_categories.csv"] =
      [PipeAction.printText usageText] ∧
    (∀ m c, PipeAction.loadFiles m c ∉
      mainActions ["disaster_messages.csv", "disaster_categories.csv"]) ∧
    PipeAction.cleanStep ∉
      mainActions ["disaster_messages.csv", "disaster_categories.csv"] ∧
    (∀ d, PipeAction.saveStep d ∉
      mainActions ["disaster_messages.csv", "disaster_categories.csv"]) :=
  claim7_usage_on_wrong_argc ["disaster_messages.csv", "disaster_categories.csv"]
    (by decide)

/-! ### Lemmas about the numeric conversion -/

lemma seqOpt_none_of_mem_none {α : Type} {l : List (Option α)}
    (h : (none : Option α) ∈ l) : seqOpt l = none := by
  induction l with
  | nil => cases h
  | cons o os ih =>
    cases o with
    | none =>
      show (match (none : Option α), seqOpt os with
        | some a, some l => some (a :: l)
        | _, _ => none) = none
      cases seqOpt os <;> rfl
    | some a =>
      have hos : (none : Option α) ∈ os := by
        simpa using h
      show (match some a, seqOpt os with
        | some a, some l => some (a :: l)
        | _, _ => none) = none
      rw [ih hos]

lemma convertRow_none_of_bad {i : Nat} {name tok : String} :
    ∀ (cs ts : List String), cs[i]? = some name → ts[i]? = some tok →
    toNumOpt (removeAll tok (name ++ "-")) = none →
    convertRow cs ts = none := by
  induction i with
  | zero =>
    intro cs ts hc ht hbad
    cases cs with
    | nil => exact Option.noConfusion hc
    | cons c0 cs =>
      cases ts with
      | nil => rfl
      | cons t0 ts =>
        have hc0 : c0 = name := by simpa using hc
        have ht0 : t0 = tok := by simpa using ht
        subst hc0; subst ht0
        show (match toNumOpt (removeAll t0 (c0 ++ "-")), convertRow cs ts with
          | some n, some l => some (n :: l)
          | _, _ => none) = none
        rw [hbad]
  | succ i ih =>
    intro cs ts hc ht hbad
    cases cs with
    | nil => exact Option.noConfusion hc
    | cons c0 cs =>
      cases ts with
      | nil => rfl
      | cons t0 ts =>
        have hrec : convertRow cs ts = none :=
          ih cs ts (by simpa using hc) (by simpa using ht) hbad
        show (match toNumOpt (removeAll t0 (c0 ++ "-")), convertRow cs ts with
          | some n, some l => some (n :: l)
          | _, _ => none) = none
        rw [hrec]
        cases toNumOpt (removeAll t0 (c0 ++ "-")) <;> rfl

lemma derivedNames_of_head {messages categories : DataFrame}
    {catStrs : List String} {firstRow : List String}
    (hstrs : getColStrs (mergeOn messages categories "id") "categories" = some catStrs)
    (hhead : (catStrs.map splitSemi).head? = some firstRow) :
    derivedNames messages categories = firstRow.map dropLast2 := by
  unfold derivedNames
  rw [hstrs]
  dsimp only
  cases hh0 : catStrs.head? with
  | none => rw [List.head?_map, hh0] at hhead; exact Option.noConfusion hhead
  | some s0 =>
    rw [List.head?_map, hh0] at hhead
    have h1 : splitSemi s0 = firstRow := by simpa using hhead
    dsimp only
    rw [h1]

/-! ### Lemmas about sequencing, column indices and the merge -/

lemma seqOpt_cons_some {α : Type} {o : Option α} {os : List (Option α)}
    {l : List α} (h : seqOpt (o :: os) = some l) :
    ∃ a os2, o = some a ∧ seqOpt os = some os2 ∧ l = a :: os2 := by
  cases o with
  | none =>
    exfalso
    have h0 : seqOpt (none :: os) = none := by
      show (match (none : Option α), seqOpt os with
        | some a, some l => some (a :: l)
        | _, _ => none) = none
      cases seqOpt os <;> rfl
    rw [h0] at h
    exact Option.noConfusion h
  | some a =>
    cases hos : seqOpt os with
    | none =>
      exfalso
      have h0 : seqOpt (some a :: os) = none := by
        show (match some a, seqOpt os with
          | some a, some l => some (a :: l)
          | _, _ => none) = none
        rw [hos]
      rw [h0] at h
      exact Option.noConfusion h
    | some os2 =>
      have h0 : seqOpt (some a :: os) = some (a :: os2) := by
        show (match some a, seqOpt os with
          | some a, some l => some (a :: l)
          | _, _ => none) = some (a :: os2)
        rw [hos]
      rw [h0] at h
      injection h with h1
      subst h1
      exact ⟨a, os2, rfl, rfl, rfl⟩

lemma seqOpt_length {α : Type} :
    ∀ {l : List (Option α)} {l2 : List α},
    seqOpt l = some l2 → l2.length = l.length := by
  intro l
  induction l with
  | nil =>
    intro l2 h
    have h0 : seqOpt ([] : List (Option α)) = some [] := rfl
    rw [h0] at h
    injection h with h1
    rw [← h1]
    rfl
  | cons o os ih =>
    intro l2 h
    obtain ⟨a, os2, _, hos, hl⟩ := seqOpt_cons_some h
    subst hl
    simp [ih hos]

lemma seqOpt_get {α : Type} :
    ∀ {l : List (Option α)} {l2 : List α}, seqOpt l = some l2 →
    ∀ (i : Nat) (o : Option α), l[i]? = some o →
    ∃ a, o = some a ∧ l2[i]? = some a := by
  intro l
  induction l with
  | nil => intro l2 _ i o hi; simp at hi
  | cons o0 os ih =>
    intro l2 h i o hi
    obtain ⟨a, os2, ho, hos, hl⟩ := seqOpt_cons_some h
    subst hl
    subst ho
    cases i with
    | zero =>
      have : o = some a := by simpa using hi.symm
      exact ⟨a, this, by simp⟩
    | succ i =>
      obtain ⟨b, hb1, hb2⟩ := ih hos i o (by simpa using hi)
      exact ⟨b, hb1, by simpa using hb2⟩

lemma asStr_eq_some {o : Option Val} {s : String} (h : asStr o = some s) :
    o = some (Val.vStr s) := by
  cases o with
  | none => exact Option.noConfusion h
  | some v =>
    cases v with
    | vInt n => exact Option.noConfusion h
    | vNum m e => exact Option.noConfusion h
    | vInf b => exact Option.noConfusion h
    | vNull => exact Option.noConfusion h
    | vStr s2 =>
      have : s2 = s := by
        have h2 : (some s2 : Option String) = some s := h
        injection h2
      rw [this]

lemma getColStrs_length {df : DataFrame} {c : String} {catStrs : List String}
    (h : getColStrs df c = some catStrs) : catStrs.length = df.rows.length := by
  have h2 := seqOpt_length h
  simpa using h2

lemma getColStrs_cell {df : DataFrame} {c : String} {catStrs : List String}
    (h : getColStrs df c = some catStrs) {i : Nat} {r : List Val}
    (hr : df.rows[i]? = some r) :
    ∃ s, catStrs[i]? = some s ∧ cellVal df.cols r c = some (Val.vStr s) := by
  have hmap : (df.rows.map (fun r => asStr (cellVal df.cols r c)))[i]? =
      some (asStr (cellVal df.cols r c)) := by
    rw [List.getElem?_map, hr]
    rfl
  obtain ⟨s, hso, hcat⟩ := seqOpt_get h i _ hmap
  exact ⟨s, hcat, asStr_eq_some hso⟩

lemma colIndex_isSome_of_mem {cols : List String} {c : String} (h : c ∈ cols) :
    ∃ j, colIndex cols c = some j := by
  cases hj : colIndex cols c with
  | some j => exact ⟨j, rfl⟩
  | none =>
    exfalso
    rw [colIndex, List.findIdx?_eq_none_iff] at hj
    have h2 := hj c h
    simp at h2

lemma colIndex_spec {cols : List String} {c : String} {j : Nat}
    (h : colIndex cols c = some j) : j < cols.length ∧ cols[j]? = some c := by
  rw [colIndex, List.findIdx?_eq_some_iff_getElem] at h
  obtain ⟨hlt, hpj, _⟩ := h
  refine ⟨hlt, ?_⟩
  have h2 : cols[j] = c := by simpa [beq_iff_eq] using hpj
  rw [List.getElem?_eq_getElem hlt, h2]

lemma mem_of_cellVal_isSome {cols : List String} {r : List Val} {c : String}
    (h : (cellVal cols r c).isSome) : c ∈ cols := by
  by_contra hc
  rw [cellVal_eq_none_of_not_mem r hc] at h
  simp at h

lemma mem_mergeOn_rows {left right : DataFrame} {key : String} {r : List Val}
    (h : r ∈ (mergeOn left right key).rows) :
    ∃ lr, lr ∈ left.rows ∧ ∃ rr, rr ∈ right.rows ∧
      cellVal right.cols rr key = cellVal left.cols lr key ∧
      (cellVal left.cols lr key).isSome ∧
      r = lr ++ eraseKey right.cols rr key := by
  simp only [mergeOn, List.mem_flatMap, List.mem_map, List.mem_filter] at h
  obtain ⟨lr, hlr, rr, ⟨hrr, hpred⟩, heq⟩ := h
  rw [Bool.and_eq_true, beq_iff_eq] at hpred
  exact ⟨lr, hlr, rr, hrr, hpred.1, hpred.2, heq.symm⟩

lemma eraseKey_length {cols : List String} {row : List Val} {key : String} {k : Nat}
    (hk : colIndex cols key = some k) (hlen : row.length = cols.length) :
    (eraseKey cols row key).length = row.length - 1 := by
  unfold eraseKey
  rw [hk]
  obtain ⟨hlt, _⟩ := colIndex_spec hk
  rw [List.length_eraseIdx]
  rw [if_pos (by omega)]

lemma filter_ne_length {cols : List String} {key : String}
    (hnod : cols.Nodup) (hmem : key ∈ cols) :
    (cols.filter (fun c => c != key)).length = cols.length - 1 := by
  rw [← List.Nodup.erase_eq_filter hnod key]
  exact List.length_erase_of_mem hmem

lemma mergeOn_cols_length {left right : DataFrame} {key : String}
    (hnod : right.cols.Nodup) (hmem : key ∈ right.cols) :
    (mergeOn left right key).cols.length =
      left.cols.length + right.cols.length - 1 := by
  show (left.cols ++ right.cols.filter (fun c => c != key)).length = _
  rw [List.length_append, filter_ne_length hnod hmem]
  have h2 := List.length_pos_of_mem hmem
  omega

lemma merged_row_length {left right : DataFrame} {key : String} {lr rr : List Val}
    (hl : lr.length = left.cols.length) (hr : rr.length = right.cols.length)
    (hnod : right.cols.Nodup)
    (hsome : (cellVal right.cols rr key).isSome) :
    (lr ++ eraseKey right.cols rr key).length =
      (mergeOn left right key).cols.length := by
  have hmem : key ∈ right.cols := mem_of_cellVal_isSome hsome
  obtain ⟨k, hk⟩ := colIndex_isSome_of_mem hmem
  rw [List.length_append, eraseKey_length hk hr,
    mergeOn_cols_length hnod hmem]
  have h2 := List.length_pos_of_mem hmem
  omega

lemma mergeOn_rows_length {left right : DataFrame} {key : String}
    (hmlen : ∀ r ∈ left.rows, r.length = left.cols.length)
    (hclen : ∀ r ∈ right.rows, r.length = right.cols.length)
    (hnod : right.cols.Nodup) :
    ∀ r ∈ (mergeOn left right key).rows,
      r.length = (mergeOn left right key).cols.length := by
  intro r hr
  obtain ⟨lr, hlr, rr, hrr, hmatch, hsome, heq⟩ := mem_mergeOn_rows hr
  rw [heq]
  exact merged_row_length (hmlen lr hlr) (hclen rr hrr) hnod
    (by rw [hmatch]; exact hsome)

lemma cellVal_merge_key {left right : DataFrame} {key : String} {lr rr : List Val}
    (hlen : lr.length = left.cols.length) :
    cellVal (mergeOn left right key).cols (lr ++ eraseKey right.cols rr key) key =
      cellVal left.cols lr key := by
  show cellVal (left.cols ++ right.cols.filter (fun c => c != key)) _ key = _
  rw [cellVal_append _ _ _ _ _ hlen]
  have hnone : cellVal (right.cols.filter (fun c => c != key))
      (eraseKey right.cols rr key) key = none := by
    apply cellVal_eq_none_of_not_mem
    intro hmem
    have h2 := (List.mem_filter.mp hmem).2
    simp at h2
  rw [hnone]
  cases cellVal left.cols lr key <;> rfl

/-- Decomposition of a successful clean_data run into the facts the
pipeline established along the way. -/
lemma cleanData_success {messages categories : DataFrame} {out : DataFrame}
    (h : cleanData messages categories = some out) :
    ∃ catStrs firstRow catRows,
      getColStrs (mergeOn messages categories "id") "categories" = some catStrs ∧
      (catStrs.map splitSemi).head? = some firstRow ∧
      ((catStrs.map splitSemi).all (fun r => r.length == firstRow.length)) = true ∧
      (firstRow.map dropLast2).Nodup ∧
      seqOpt ((catStrs.map splitSemi).map
        (fun r => convertRow (firstRow.map dropLast2) r)) = some catRows ∧
      out = { cols := (assignCols (dropCol (mergeOn messages categories "id") "categories")
                { cols := firstRow.map dropLast2,
                  rows := catRows }).cols,
              rows := dropDuplicates (assignCols
                (dropCol (mergeOn messages categories "id") "categories")
                { cols := firstRow.map dropLast2,
                  rows := catRows }).rows } := by
  unfold cleanData at h
  dsimp only at h
  split at h
  case h_2 => exact Option.noConfusion h
  case h_1 catStrs hstrs =>
    split at h
    case h_2 => exact Option.noConfusion h
    case h_1 firstRow hfirst =>
      unfold cleanMergedTokens at h
      split at h
      case isFalse => exact Option.noConfusion h
      case isTrue hall =>
        dsimp only at h
        split at h
        case isFalse => exact Option.noConfusion h
        case isTrue hnodup =>
          split at h
          case h_2 => exact Option.noConfusion h
          case h_1 catRows hseq =>
            injection h with h2
            exact ⟨catStrs, firstRow, catRows, hstrs, hfirst, hall, hnodup,
              hseq, h2.symm⟩

/-- In a successfully cleaned run the merged frame is nonempty and
carries a string-valued categories column. -/
lemma merge_has_categories {messages categories : DataFrame}
    {catStrs : List String} {firstRow : List String}
    (hstrs : getColStrs (mergeOn messages categories "id") "categories" = some catStrs)
    (hfirst : (catStrs.map splitSemi).head? = some firstRow) :
    ∃ row0, row0 ∈ (mergeOn messages categories "id").rows ∧
      "categories" ∈ (mergeOn messages categories "id").cols := by
  have hlen := getColStrs_length hstrs
  have hne : catStrs ≠ [] := by
    intro hnil
    rw [hnil] at hfirst
    exact Option.noConfusion hfirst
  have hpos : 0 < (mergeOn messages categories "id").rows.length := by
    rw [← hlen]
    cases catStrs with
    | nil => exact absurd rfl hne
    | cons a t => simp
  obtain ⟨row0, hrow0⟩ :
      ∃ row0, (mergeOn messages categories "id").rows[0]? = some row0 := by
    cases hr0 : (mergeOn messages categories "id").rows[0]? with
    | some r => exact ⟨r, rfl⟩
    | none =>
      exfalso
      rw [List.getElem?_eq_getElem hpos] at hr0
      exact Option.noConfusion hr0
  obtain ⟨s, _, hcv⟩ := getColStrs_cell hstrs hrow0
  refine ⟨row0, List.getElem?_mem hrow0, ?_⟩
  exact mem_of_cellVal_isSome (by rw [hcv]; rfl)

/-- The identifier value of a row survives the drop of the raw column
and the attachment of the category columns, as long as no derived
category is itself named "id". -/
lemma cellVal_out_id {Mcols : List String} {mrow : List Val} {j : Nat}
    {cats : DataFrame} (cr : List Val)
    (hlen : mrow.length = Mcols.length)
    (hj : Mcols[j]? = some "categories")
    (hid : "id" ∉ cats.cols) :
    cellVal (Mcols.eraseIdx j ++ newColNames (Mcols.eraseIdx j) cats.cols)
      (assignRow (Mcols.eraseIdx j) cats (mrow.eraseIdx j, cr)) "id" =
    cellVal Mcols mrow "id" := by
  have hjlt : j < Mcols.length := by
    by_contra hge
    rw [List.getElem?_eq_none (by omega)] at hj
    exact Option.noConfusion hj
  have hlen2 : (mrow.eraseIdx j).length = (Mcols.eraseIdx j).length := by
    rw [List.length_eraseIdx, List.length_eraseIdx, hlen]
  have hcats_none : cellVal cats.cols cr "id" = none :=
    cellVal_eq_none_of_not_mem _ hid
  have hnew : "id" ∉ newColNames (Mcols.eraseIdx j) cats.cols := by
    intro hmem
    exact hid (List.mem_filter.mp hmem).1
  have herase : cellVal (Mcols.eraseIdx j) (mrow.eraseIdx j) "id" =
      cellVal Mcols mrow "id" :=
    cellVal_eraseIdx hlen hj (by decide)
  rw [cellVal_assignRow _ _ _ _ _ hlen2, hcats_none, herase]
  cases hv : cellVal Mcols mrow "id" with
  | some v => rfl
  | none => rw [if_neg hnew]

/-- The list of identifier values is unchanged by the drop of the raw
column followed by the attachment of the category columns. -/
lemma ids_map_eq {Mcols : List String} {j : Nat} {cats : DataFrame}
    (hj : Mcols[j]? = some "categories")
    (hid : "id" ∉ cats.cols) :
    ∀ (Mrows crows : List (List Val)),
    crows.length = Mrows.length →
    (∀ r ∈ Mrows, r.length = Mcols.length) →
    (((Mrows.map (fun r => r.eraseIdx j)).zip crows).map
        (assignRow (Mcols.eraseIdx j) cats)).map
      (fun r => cellVal
        (Mcols.eraseIdx j ++ newColNames (Mcols.eraseIdx j) cats.cols) r "id") =
    Mrows.map (fun r => cellVal Mcols r "id") := by
  intro Mrows
  induction Mrows with
  | nil => intro crows _ _; simp
  | cons mrow Mrows ih =>
    intro crows hlen hrows
    cases crows with
    | nil => simp at hlen
    | cons cr crows2 =>
      simp only [List.map_cons, List.zip_cons_cons]
      rw [cellVal_out_id cr (hrows mrow (by simp)) hj hid]
      rw [ih crows2 (by simpa using hlen)
        (fun r hr => hrows r (by simp [hr]))]

/-! ### Claim theorems, part 2 -/

/-- C8 (amended): the conversion removes every occurrence of the
pattern name ++ "-" from the token (Python str.replace, not a prefix
strip), and when the result of that removal is not parseable as a
numeric literal — the pd.to_numeric grammar: an optionally signed
decimal or scientific numeral, an infinity word or a NaN word — for
some token of the merged categories column, the conversion error is
fatal: clean_data returns no table, with no partial-row recovery. -/
theorem claim8_replace_parse_fatal (messages categories : DataFrame)
    (catStrs : List String) (s tok name : String) (i : Nat)
    (hstrs : getColStrs (mergeOn messages categories "id") "categories" = some catStrs)
    (hs : s ∈ catStrs)
    (htok : (splitSemi s)[i]? = some tok)
    (hname : (derivedNames messages categories)[i]? = some name)
    (hbad : toNumOpt (removeAll tok (name ++ "-")) = none) :
    cleanData messages categories = none := by
  unfold cleanData
  dsimp only
  rw [hstrs]
  dsimp only
  cases hhead : (catStrs.map splitSemi).head? with
  | none => rfl
  | some firstRow =>
    dsimp only
    have hnames : derivedNames messages categories = firstRow.map dropLast2 :=
      derivedNames_of_head hstrs hhead
    unfold cleanMergedTokens
    split
    · dsimp only
      split
      · have hnameF : (firstRow.map dropLast2)[i]? = some name := by
          rw [← hnames]; exact hname
        have hconv : convertRow (firstRow.map dropLast2) (splitSemi s) = none :=
          convertRow_none_of_bad (firstRow.map dropLast2) (splitSemi s)
            hnameF htok hbad
        have hmem1 : splitSemi s ∈ catStrs.map splitSemi :=
          List.mem_map_of_mem splitSemi hs
        have hmem : (none : Option (List Val)) ∈
            (catStrs.map splitSemi).map
              (fun r => convertRow (firstRow.map dropLast2) r) := by
          have h2 := List.mem_map_of_mem
            (fun r => convertRow (firstRow.map dropLast2) r) hmem1
          dsimp only at h2
          rw [hconv] at h2
          exact h2
        rw [seqOpt_none_of_mem_none hmem]
      · rfl
    · rfl

/-- Witness for C8 on a malformed suffix: the token "related-x" leaves
the non-numeric remainder "x", and clean_data fails. -/
theorem claim8_witness : cleanData msgs1 catsBadSuffix = none :=
  claim8_replace_parse_fatal msgs1 catsBadSuffix ["related-x"]
    "related-x" "related-x" "related" 0
    (by decide) (by decide) (by decide) (by decide) (by decide)

/-- C8 counterexample to the claim as stated, on both of its readings
of the conversion.  First, the token "a-a-1" of catsReplTwice has the
remainder "a-1" after its "a-" name prefix is stripped once, which is
not parseable at all, yet clean_data succeeds: the code removes every
"a-" occurrence, leaving "1".  Second, the token "related-1.5" of
catsFloat leaves the remainder "1.5", which is not parseable as an
integer, yet clean_data succeeds with the float value 1.5: the code
converts to a number, not to an integer. -/
theorem claim8_counterexample :
    splitSemi "a-a-1" = ["a-a-1"] ∧
    derivedNames msgs2 catsReplTwice = ["a"] ∧
    toNumOpt (String.mk (("a-a-1").data.drop ("a-").length)) = none ∧
    cleanData msgs2 catsReplTwice = some cleanedReplTwice ∧
    derivedNames msgs2 catsFloat = ["related"] ∧
    removeAll "related-1.5" "related-" = "1.5" ∧
    toNumOpt "1.5" = some (Val.vNum 15 (-1)) ∧
    (∀ n : Int, Val.vNum 15 (-1) ≠ Val.vInt n) ∧
    cleanData msgs2 catsFloat = some cleanedFloat := by
  refine ⟨by decide, by decide, by decide, by decide, by decide, by decide,
    by decide, fun n h => Val.noConfusion h, by decide⟩

/-- C2 (amended): every identifier value of the cleaned table comes
from a messages row and a categories row (inner join), for well-formed
inputs — rows as long as their headers, no duplicate category headers —
whenever no derived category name is itself "id" (a token named "id"
would overwrite the identifier column). -/
theorem claim2_inner_join_amended (messages categories : DataFrame)
    (out : DataFrame)
    (hmlen : ∀ r ∈ messages.rows, r.length = messages.cols.length)
    (hclen : ∀ r ∈ categories.rows, r.length = categories.cols.length)
    (hcnod : categories.cols.Nodup)
    (hid : "id" ∉ derivedNames messages categories)
    (hclean : cleanData messages categories = some out) :
    ∀ r ∈ out.rows, ∀ v, cellVal out.cols r "id" = some v →
      (∃ rm, rm ∈ messages.rows ∧ cellVal messages.cols rm "id" = some v) ∧
      (∃ rc, rc ∈ categories.rows ∧ cellVal categories.cols rc "id" = some v) := by
  obtain ⟨catStrs, firstRow, catRows, hstrs, hfirst, hall, hnodup, hseq, hout⟩ :=
    cleanData_success hclean
  have hnames : derivedNames messages categories = firstRow.map dropLast2 :=
    derivedNames_of_head hstrs hfirst
  rw [hnames] at hid
  obtain ⟨row0, hrow0, hcatmem⟩ := merge_has_categories hstrs hfirst
  obtain ⟨j, hj⟩ := colIndex_isSome_of_mem hcatmem
  have hjspec := colIndex_spec hj
  have hdrop : dropCol (mergeOn messages categories "id") "categories" =
      { cols := (mergeOn messages categories "id").cols.eraseIdx j,
        rows := (mergeOn messages categories "id").rows.map
          (fun r => r.eraseIdx j) } := by
    unfold dropCol
    rw [hj]
  intro rout hrout v hv
  rw [hout] at hrout
  have hrout2 : rout ∈ (assignCols
      (dropCol (mergeOn messages categories "id") "categories")
      { cols := firstRow.map dropLast2,
        rows := catRows }).rows := by
    exact mem_of_mem_dropDupAux _ _ hrout
  obtain ⟨p, hp, hpr⟩ := List.mem_map.mp hrout2
  obtain ⟨p1, p2⟩ := p
  have hp12 := List.of_mem_zip hp
  rw [hdrop] at hp12
  obtain ⟨mrow, hmrow, hmrow_eq⟩ := List.mem_map.mp hp12.1
  obtain ⟨lr, hlr, rr, hrr, hmatch, hsome, heq⟩ := mem_mergeOn_rows hmrow
  have hmlen2 : mrow.length = (mergeOn messages categories "id").cols.length := by
    rw [heq]
    exact merged_row_length (hmlen lr hlr) (hclen rr hrr) hcnod
      (by rw [hmatch]; exact hsome)
  have hvout : cellVal out.cols rout "id" =
      cellVal (mergeOn messages categories "id").cols mrow "id" := by
    rw [hout]
    show cellVal (assignCols
      (dropCol (mergeOn messages categories "id") "categories")
      { cols := firstRow.map dropLast2,
        rows := catRows }).cols rout "id" = _
    rw [← hpr]
    rw [hdrop]
    show cellVal ((mergeOn messages categories "id").cols.eraseIdx j ++
      newColNames ((mergeOn messages categories "id").cols.eraseIdx j)
        (firstRow.map dropLast2)) _ "id" = _
    rw [← hmrow_eq]
    exact @cellVal_out_id (mergeOn messages categories "id").cols mrow j
      { cols := firstRow.map dropLast2,
        rows := catRows }
      p2 hmlen2 hjspec.2 hid
  rw [hvout] at hv
  rw [heq, cellVal_merge_key (hmlen lr hlr)] at hv
  refine ⟨⟨lr, hlr, hv⟩, ⟨rr, hrr, ?_⟩⟩
  rw [hmatch]
  exact hv

/-- C2 counterexample to the claim as stated: a category token named
"id" ("id-5") overwrites the identifier column, so the cleaned table
holds identifier 5, which appears in neither input table. -/
theorem claim2_counterexample :
    cleanData msgs1 catsIdToken =
      some { cols := ["id", "message"],
             rows := [[Val.vInt 5, Val.vStr "flood here"]] } ∧
    cellVal ["id", "message"] [Val.vInt 5, Val.vStr "flood here"] "id" =
      some (Val.vInt 5) ∧
    (∀ rm ∈ msgs1.rows, cellVal msgs1.cols rm "id" ≠ some (Val.vInt 5)) ∧
    (∀ rc ∈ catsIdToken.rows,
      cellVal catsIdToken.cols rc "id" ≠ some (Val.vInt 5)) := by
  refine ⟨by decide, by decide, by decide, by decide⟩

/-- Witness for C2 on the two-row inputs. -/
theorem claim2_witness :
    (∃ rm, rm ∈ msgs2.rows ∧
      cellVal msgs2.cols rm "id" = some (Val.vInt 1)) ∧
    (∃ rc, rc ∈ catsDupId.rows ∧
      cellVal catsDupId.cols rc "id" = some (Val.vInt 1)) := by
  refine claim2_inner_join_amended msgs2 catsDupId
    { cols := ["id", "message", "related"],
      rows := [[Val.vInt 1, Val.vStr "flood here", Val.vInt 1],
               [Val.vInt 1, Val.vStr "flood here", Val.vInt 0]] }
    (by decide) (by decide) (by decide) (by decide) (by decide)
    [Val.vInt 1, Val.vStr "flood here", Val.vInt 1] (by decide)
    (Val.vInt 1) (by decide)

/-! ### Lemmas for identifier uniqueness -/

lemma not_mem_seen_of_mem_dropDupAux {x : List Val} :
    ∀ (l seen : List (List Val)), x ∈ dropDupAux seen l → x ∉ seen := by
  intro l
  induction l with
  | nil => intro seen h; cases h
  | cons r rs ih =>
    intro seen h
    by_cases hr : r ∈ seen
    · rw [dropDupAux, if_pos hr] at h
      exact ih seen h
    · rw [dropDupAux, if_neg hr] at h
      cases h with
      | head => exact hr
      | tail _ h2 =>
        intro hx
        exact ih (r :: seen) h2 (by simp [hx])

lemma dropDupAux_nodup : ∀ (l seen : List (List Val)),
    (dropDupAux seen l).Nodup := by
  intro l
  induction l with
  | nil => intro seen; exact List.Pairwise.nil
  | cons r rs ih =>
    intro seen
    by_cases hr : r ∈ seen
    · rw [dropDupAux, if_pos hr]
      exact ih seen
    · rw [dropDupAux, if_neg hr]
      rw [List.nodup_cons]
      refine ⟨?_, ih (r :: seen)⟩
      intro hmem
      exact not_mem_seen_of_mem_dropDupAux rs (r :: seen) hmem (by simp)

lemma pairwise_of_length_le_one {α : Type} {R : α → α → Prop} {l : List α}
    (h : l.length ≤ 1) : l.Pairwise R := by
  cases l with
  | nil => exact List.Pairwise.nil
  | cons a t =>
    cases t with
    | nil => simp
    | cons b t2 => simp at h

lemma length_filter_le_one_of_ids_nodup {cols : List String} :
    ∀ {rows : List (List Val)},
    (rows.map (fun r => cellVal cols r "id")).Nodup →
    ∀ (p : List Val → Bool),
    (∀ a ∈ rows, p a = true → ∀ b ∈ rows, p b = true →
      cellVal cols a "id" = cellVal cols b "id") →
    (rows.filter p).length ≤ 1 := by
  intro rows
  induction rows with
  | nil => intro _ p _; simp
  | cons a t ih =>
    intro hnodup p hsame
    rw [List.map_cons, List.nodup_cons] at hnodup
    by_cases hpa : p a = true
    · rw [List.filter_cons_of_pos hpa]
      have ht : t.filter p = [] := by
        by_contra hne
        obtain ⟨b, hb⟩ := List.exists_mem_of_ne_nil _ hne
        have hbmem := List.mem_filter.mp hb
        have heqid := hsame a (by simp) hpa b (by simp [hbmem.1]) hbmem.2
        exact hnodup.1 (heqid ▸ List.mem_map_of_mem _ hbmem.1)
      rw [ht]
      simp
    · rw [List.filter_cons_of_neg hpa]
      exact ih hnodup.2 p
        (fun x hx hpx y hy hpy => hsame x (by simp [hx]) hpx y (by simp [hy]) hpy)

lemma mergeOn_ids_nodup (left right : DataFrame)
    (hmlen : ∀ r ∈ left.rows, r.length = left.cols.length)
    (hlu : (left.rows.map (fun r => cellVal left.cols r "id")).Nodup)
    (hru : (right.rows.map (fun r => cellVal right.cols r "id")).Nodup) :
    ((mergeOn left right "id").rows.map
      (fun r => cellVal (mergeOn left right "id").cols r "id")).Nodup := by
  show ((left.rows.flatMap (fun lr =>
      ((right.rows.filter (fun rr =>
          (cellVal right.cols rr "id" == cellVal left.cols lr "id") &&
          (cellVal left.cols lr "id").isSome)).map
        (fun rr => lr ++ eraseKey right.cols rr "id")))).map
      (fun r => cellVal (mergeOn left right "id").cols r "id")).Nodup
  rw [List.map_flatMap, List.flatMap_def]
  have hperblock : ∀ lr ∈ left.rows, ∀ x ∈
      ((right.rows.filter (fun rr =>
          (cellVal right.cols rr "id" == cellVal left.cols lr "id") &&
          (cellVal left.cols lr "id").isSome)).map
        (fun rr => lr ++ eraseKey right.cols rr "id")).map
      (fun r => cellVal (mergeOn left right "id").cols r "id"),
      x = cellVal left.cols lr "id" := by
    intro lr hlr x hx
    rw [List.map_map] at hx
    obtain ⟨rr, _, hrr2⟩ := List.mem_map.mp hx
    rw [← hrr2]
    show cellVal (mergeOn left right "id").cols
      (lr ++ eraseKey right.cols rr "id") "id" = _
    exact cellVal_merge_key (hmlen lr hlr)
  apply List.pairwise_flatten.mpr
  constructor
  · intro l2 hl2
    obtain ⟨lr, hlr, hl2eq⟩ := List.mem_map.mp hl2
    apply pairwise_of_length_le_one
    rw [← hl2eq]
    rw [List.length_map, List.length_map]
    apply length_filter_le_one_of_ids_nodup hru
    intro a _ hpa b _ hpb
    rw [Bool.and_eq_true, beq_iff_eq] at hpa hpb
    rw [hpa.1, hpb.1]
  · rw [List.pairwise_map]
    have hlu2 := List.pairwise_map.mp hlu
    apply hlu2.imp_of_mem
    intro lr1 lr2 hm1 hm2 hne x hx y hy
    rw [hperblock lr1 hm1 x hx, hperblock lr2 hm2 y hy]
    exact hne

/-- C4 (amended): the cleaned table never holds two identical rows, and
when the identifier is unique in both well-formed input tables and no
derived category name is "id", no two rows of the cleaned table share
an identifier value. -/
theorem claim4_id_unique_amended (messages categories : DataFrame)
    (out : DataFrame)
    (hmlen : ∀ r ∈ messages.rows, r.length = messages.cols.length)
    (hclen : ∀ r ∈ categories.rows, r.length = categories.cols.length)
    (hcnod : categories.cols.Nodup)
    (hid : "id" ∉ derivedNames messages categories)
    (hmu : (messages.rows.map (fun r => cellVal messages.cols r "id")).Nodup)
    (hcu : (categories.rows.map (fun r => cellVal categories.cols r "id")).Nodup)
    (hclean : cleanData messages categories = some out) :
    out.rows.Nodup ∧
    out.rows.Pairwise
      (fun r s => cellVal out.cols r "id" ≠ cellVal out.cols s "id") := by
  obtain ⟨catStrs, firstRow, catRows, hstrs, hfirst, hall, hnodup, hseq, hout⟩ :=
    cleanData_success hclean
  have hnames : derivedNames messages categories = firstRow.map dropLast2 :=
    derivedNames_of_head hstrs hfirst
  rw [hnames] at hid
  obtain ⟨row0, hrow0, hcatmem⟩ := merge_has_categories hstrs hfirst
  obtain ⟨j, hj⟩ := colIndex_isSome_of_mem hcatmem
  have hjspec := colIndex_spec hj
  have hdrop : dropCol (mergeOn messages categories "id") "categories" =
      { cols := (mergeOn messages categories "id").cols.eraseIdx j,
        rows := (mergeOn messages categories "id").rows.map
          (fun r => r.eraseIdx j) } := by
    unfold dropCol
    rw [hj]
  constructor
  · rw [hout]
    exact dropDupAux_nodup _ []
  · -- identifiers of the assigned rows coincide with those of the merge
    have hlenM : ∀ r ∈ (mergeOn messages categories "id").rows,
        r.length = (mergeOn messages categories "id").cols.length :=
      mergeOn_rows_length hmlen hclen hcnod
    have hcrows_len : (catRows).length =
        (mergeOn messages categories "id").rows.length := by
      rw [seqOpt_length hseq, List.length_map, List.length_map,
        getColStrs_length hstrs]
    have hids := @ids_map_eq (mergeOn messages categories "id").cols j
      { cols := firstRow.map dropLast2,
        rows := catRows }
      hjspec.2 hid
      (mergeOn messages categories "id").rows
      (catRows) hcrows_len hlenM
    have hassigned : ((assignCols
        (dropCol (mergeOn messages categories "id") "categories")
        { cols := firstRow.map dropLast2,
          rows := catRows }).rows.map
      (fun r => cellVal (assignCols
        (dropCol (mergeOn messages categories "id") "categories")
        { cols := firstRow.map dropLast2,
          rows := catRows }).cols r "id")) =
        (mergeOn messages categories "id").rows.map
          (fun r => cellVal (mergeOn messages categories "id").cols r "id") := by
      rw [hdrop]
      exact hids
    have hnodup2 : ((assignCols
        (dropCol (mergeOn messages categories "id") "categories")
        { cols := firstRow.map dropLast2,
          rows := catRows }).rows.map
      (fun r => cellVal (assignCols
        (dropCol (mergeOn messages categories "id") "categories")
        { cols := firstRow.map dropLast2,
          rows := catRows }).cols r "id")).Nodup := by
      rw [hassigned]
      exact mergeOn_ids_nodup messages categories hmlen hmu hcu
    have hsub : (dropDuplicates (assignCols
        (dropCol (mergeOn messages categories "id") "categories")
        { cols := firstRow.map dropLast2,
          rows := catRows }).rows).Sublist
        (assignCols
          (dropCol (mergeOn messages categories "id") "categories")
          { cols := firstRow.map dropLast2,
            rows := catRows }).rows :=
      dropDupAux_sublist _ []
    have hnodup3 := List.Nodup.sublist
      (List.Sublist.map (fun r => cellVal (assignCols
        (dropCol (mergeOn messages categories "id") "categories")
        { cols := firstRow.map dropLast2,
          rows := catRows }).cols r "id") hsub)
      hnodup2
    have hpair : (dropDuplicates (assignCols
        (dropCol (mergeOn messages categories "id") "categories")
        { cols := firstRow.map dropLast2,
          rows := catRows }).rows).Pairwise
        (fun r s => cellVal (assignCols
            (dropCol (mergeOn messages categories "id") "categories")
            { cols := firstRow.map dropLast2,
              rows := catRows }).cols r "id" ≠
          cellVal (assignCols
            (dropCol (mergeOn messages categories "id") "categories")
            { cols := firstRow.map dropLast2,
              rows := catRows }).cols s "id") :=
      List.pairwise_map.mp hnodup3
    rw [hout]
    exact hpair

/-- C4 counterexample to the claim as stated: with identifier 1
appearing twice in the category table with different flags, the cleaned
table keeps two distinct rows sharing identifier 1 — deduplication only
collapses fully identical rows. -/
theorem claim4_counterexample :
    cleanData msgs1 catsDupId =
      some { cols := ["id", "message", "related"],
             rows := [[Val.vInt 1, Val.vStr "flood here", Val.vInt 1],
                      [Val.vInt 1, Val.vStr "flood here", Val.vInt 0]] } ∧
    [Val.vInt 1, Val.vStr "flood here", Val.vInt 1] ≠
      [Val.vInt 1, Val.vStr "flood here", Val.vInt 0] ∧
    cellVal ["id", "message", "related"]
        [Val.vInt 1, Val.vStr "flood here", Val.vInt 1] "id" =
      cellVal ["id", "message", "related"]
        [Val.vInt 1, Val.vStr "flood here", Val.vInt 0] "id" := by
  refine ⟨by decide, by decide, by decide⟩

/-- Witness for C4: unique input identifiers give unique cleaned
identifiers. -/
theorem claim4_witness :
    cleaned1.rows.Nodup ∧
    cleaned1.rows.Pairwise
      (fun r s => cellVal cleaned1.cols r "id" ≠ cellVal cleaned1.cols s "id") :=
  claim4_id_unique_amended msgs2 cats1 cleaned1 (by decide) (by decide)
    (by decide) (by decide) (by decide) (by decide) (by decide)

/-- C5 (amended): for category tables with distinct headers and derived
category names that collide with no input column, the cleaned column
count is (message columns) + (category columns − 2) + N: the merge
keeps a single copy of the shared identifier column and the raw
categories column is dropped, so two columns disappear, not one. -/
theorem claim5_column_count_amended (messages categories : DataFrame)
    (out : DataFrame)
    (hcnod : categories.cols.Nodup)
    (hnew : ∀ n ∈ derivedNames messages categories,
      n ∉ messages.cols ∧ n ∉ categories.cols)
    (hclean : cleanData messages categories = some out) :
    out.cols.length + 2 =
      messages.cols.length + categories.cols.length +
        (derivedNames messages categories).length := by
  obtain ⟨catStrs, firstRow, catRows, hstrs, hfirst, hall, hnodup, hseq, hout⟩ :=
    cleanData_success hclean
  have hnames : derivedNames messages categories = firstRow.map dropLast2 :=
    derivedNames_of_head hstrs hfirst
  rw [hnames] at hnew
  obtain ⟨row0, hrow0, hcatmem⟩ := merge_has_categories hstrs hfirst
  obtain ⟨j, hj⟩ := colIndex_isSome_of_mem hcatmem
  have hjspec := colIndex_spec hj
  obtain ⟨lr, _, rr, _, hmatch, hsome, _⟩ := mem_mergeOn_rows hrow0
  have hidmem : "id" ∈ categories.cols := by
    apply mem_of_cellVal_isSome (r := rr)
    rw [hmatch]
    exact hsome
  have hdrop : dropCol (mergeOn messages categories "id") "categories" =
      { cols := (mergeOn messages categories "id").cols.eraseIdx j,
        rows := (mergeOn messages categories "id").rows.map
          (fun r => r.eraseIdx j) } := by
    unfold dropCol
    rw [hj]
  have hMlen : (mergeOn messages categories "id").cols.length =
      messages.cols.length + categories.cols.length - 1 :=
    mergeOn_cols_length hcnod hidmem
  have hkeep : newColNames ((mergeOn messages categories "id").cols.eraseIdx j)
      (firstRow.map dropLast2) = firstRow.map dropLast2 := by
    apply List.filter_eq_self.mpr
    intro n hn
    have hn2 := hnew n hn
    have hnmem : n ∉ (mergeOn messages categories "id").cols.eraseIdx j := by
      intro hmemn
      have hmemn2 := List.mem_of_mem_eraseIdx hmemn
      rcases List.mem_append.mp hmemn2 with hL | hR
      · exact hn2.1 hL
      · exact hn2.2 (List.mem_filter.mp hR).1
    simp [List.elem_iff, hnmem]
  have houtlen : out.cols.length =
      ((mergeOn messages categories "id").cols.eraseIdx j).length +
        (firstRow.map dropLast2).length := by
    rw [hout]
    show (assignCols (dropCol (mergeOn messages categories "id") "categories")
      { cols := firstRow.map dropLast2,
        rows := catRows }).cols.length = _
    rw [hdrop]
    show (((mergeOn messages categories "id").cols.eraseIdx j) ++
      newColNames ((mergeOn messages categories "id").cols.eraseIdx j)
        (firstRow.map dropLast2)).length = _
    rw [hkeep, List.length_append]
  have herase : ((mergeOn messages categories "id").cols.eraseIdx j).length =
      (mergeOn messages categories "id").cols.length - 1 := by
    rw [List.length_eraseIdx, if_pos hjspec.1]
  have hNlen : (derivedNames messages categories).length =
      (firstRow.map dropLast2).length := by
    rw [hnames]
  have hcpos : 0 < categories.cols.length := List.length_pos_of_mem hidmem
  have hjlt := hjspec.1
  rw [houtlen, herase, hNlen]
  omega

/-- C5 counterexample to the claim as stated: on the spec scenario the
cleaned table has 4 columns, while the claimed formula (message columns)
+ (category columns − 1) + N gives 2 + 1 + 2 = 5 — it counts the shared
identifier column twice. -/
theorem claim5_counterexample :
    cleanData msgs1 cats1 = some cleaned1 ∧
    cleaned1.cols.length = 4 ∧
    (derivedNames msgs1 cats1).length = 2 ∧
    msgs1.cols.length + (cats1.cols.length - 1) +
      (derivedNames msgs1 cats1).length = 5 := by
  refine ⟨by decide, by decide, by decide, by decide⟩

/-- Witness for C5 on the spec scenario: 4 + 2 = 2 + 2 + 2. -/
theorem claim5_witness :
    cleaned1.cols.length + 2 =
      msgs1.cols.length + cats1.cols.length +
        (derivedNames msgs1 cats1).length :=
  claim5_column_count_amended msgs1 cats1 cleaned1 (by decide) (by decide)
    (by decide)

end DisasterPipeline
